import Mathlib

/-!
Verification of the credential-wallet core (tdog-space/rust-sdk) against its
specification. This file gives a shallow embedding in Lean 4 of the Rust
definitions that the checked claims are about, and proves or refutes each
claim over that embedding.

Conventions used throughout:
* machine integers are embedded as `Nat`/`Int`; `i128` arithmetic shift
  right by `k` is `Int` floor division `/ 2^k` (Lean's `Int` division is
  Euclidean, which coincides with floor division for positive divisors),
  and `as u8` truncation is `% 256` (Euclidean remainder, always in
  `[0, 256)`, exactly the low 8 bits of the two's complement value);
* fallible Rust code returns `Option`/`Except`; a Rust `panic!` or
  `unreachable!` is modelled as an `Option` returning `none`;
* a Rust loop whose body may run forever is modelled fuel-indexed: the
  model returns `none` when the loop has not returned after `fuel`
  iterations, so `∀ fuel, model fuel x = none` states divergence at `x`.
-/

set_option maxRecDepth 16000

/-! ## Byte-string helpers

Big-endian byte interpretation and production, used by the embeddings of
`CborInteger` (src/rust/src/common.rs) and of the `p256` signature codecs
(src/rust/src/crypto.rs). -/

/-- Big-endian interpretation of a byte list as a natural number. -/
def beNat (l : List Nat) : Nat :=
  l.foldl (fun acc b => acc * 256 + b) 0

/-- Big-endian encoding of `v` into exactly `w` bytes (low `8*w` bits of `v`). -/
def natToBytes : Nat → Nat → List Nat
  | 0, _ => []
  | w + 1, v => natToBytes w (v / 256) ++ [v % 256]

/-! ## CborInteger (src/rust/src/common.rs, lines 164-226)

The Rust struct holds `bytes: Vec<u8>`; we embed byte vectors as
`List Nat` whose entries are below 256 whenever they were produced by the
source constructors. -/

/-- Embeds `struct CborInteger { bytes: Vec<u8> }` from common.rs. -/
structure CborInteger where
  bytes : List Nat
deriving Repr, DecidableEq

/-- Embeds `impl From<i128> for CborInteger` (common.rs lines 197-220): the
buffer is the 16 explicit entries `(value >> 120) as u8`, ...,
`(value) as u8`, big-endian. -/
def CborInteger.fromI128 (value : Int) : CborInteger :=
  ⟨[(value / 2 ^ 120 % 256).toNat,
    (value / 2 ^ 112 % 256).toNat,
    (value / 2 ^ 104 % 256).toNat,
    (value / 2 ^ 96 % 256).toNat,
    (value / 2 ^ 88 % 256).toNat,
    (value / 2 ^ 80 % 256).toNat,
    (value / 2 ^ 72 % 256).toNat,
    (value / 2 ^ 64 % 256).toNat,
    (value / 2 ^ 56 % 256).toNat,
    (value / 2 ^ 48 % 256).toNat,
    (value / 2 ^ 40 % 256).toNat,
    (value / 2 ^ 32 % 256).toNat,
    (value / 2 ^ 24 % 256).toNat,
    (value / 2 ^ 16 % 256).toNat,
    (value / 2 ^ 8 % 256).toNat,
    (value % 256).toNat]⟩

/-- Embeds `CborInteger::lower_bytes` (common.rs lines 171-177):
`self.bytes[8..16].iter().rev().enumerate().fold(0, |acc,(i,v)| acc | ((*v as u64) << (i*8)))`.
The Rust slice `bytes[8..16]` panics when the buffer is shorter than 16;
every buffer built by `From<i128>` has length 16 (proved below), and the
claims only evaluate this accessor on such buffers. -/
def CborInteger.lower_bytes (c : CborInteger) : Nat :=
  (((c.bytes.drop 8).take 8).reverse.enum).foldl
    (fun acc p => acc ||| (p.2 <<< (p.1 * 8))) 0

/-- Embeds `CborInteger::upper_bytes` (common.rs lines 179-185), same fold
over `self.bytes[0..8]`. -/
def CborInteger.upper_bytes (c : CborInteger) : Nat :=
  ((c.bytes.take 8).reverse.enum).foldl
    (fun acc p => acc ||| (p.2 <<< (p.1 * 8))) 0

/-- Embeds `CborInteger::to_text` (common.rs lines 187-194): reassemble
`((upper as u128) << 64) | (lower as u128)` and reinterpret the `u128` as
`i128` by two's complement (the source uses `mem::transmute::<u128, i128>`),
then format in decimal. -/
def CborInteger.to_text (c : CborInteger) : String :=
  let lower := c.lower_bytes
  let upper := c.upper_bytes
  let u := (upper <<< 64) ||| lower
  toString (if u < 2 ^ 127 then (u : Int) else (u : Int) - 2 ^ 128)

/-- Embeds `impl From<CborInteger> for i128` (common.rs lines 222-226):
`i128::from_be_bytes(value.bytes.try_into().unwrap_or([0; 16]))`; a buffer
whose length is not 16 falls back to the zero array, hence decodes to 0. -/
def CborInteger.toI128 (c : CborInteger) : Int :=
  if c.bytes.length = 16 then
    let u := beNat c.bytes
    if u < 2 ^ 127 then (u : Int) else (u : Int) - 2 ^ 128
  else 0

/-! ## CBOR key mapper (src/rust/src/common.rs, lines 324-412) -/

/- Embeds the constants of `mod cbor_keys` (common.rs lines 325-348). -/
namespace cbor_keys

def ISSUER : Int := 1
def EXPIRES : Int := 4
def NOT_BEFORE : Int := 5
def ISSUED : Int := 6
def FULL_NAME : Int := -70001
def EMAIL : Int := -70002
def COMPANY : Int := -70003
def BIRTH_CERT_NUMBER : Int := -70011
def GIVEN_NAMES : Int := -70012
def FAMILY_NAME : Int := -70013
def BIRTH_DATE : Int := -70014
def SEX : Int := -70015
def BIRTH_LOCALITY : Int := -70016
def COUNTY_FIPS_CODE : Int := -70017
def MOTHER : Int := -70018
def FATHER : Int := -70019
def REGISTRATION_DATE : Int := -70020

end cbor_keys

namespace CborKeyMapper

/-- Embeds `CborKeyMapper::key_to_string` (common.rs lines 355-382); the Rust
`match` over `i128` constants is rendered as an `if` chain over the same
constants, with the `_ => key.to_string()` fallback as the final branch. -/
def key_to_string (key : Int) : String :=
  if key = cbor_keys.ISSUER then "Issuer"
  else if key = cbor_keys.EXPIRES then "Expires"
  else if key = cbor_keys.NOT_BEFORE then "Not Before"
  else if key = cbor_keys.ISSUED then "Issued"
  else if key = cbor_keys.FULL_NAME then "Full Name"
  else if key = cbor_keys.EMAIL then "Email"
  else if key = cbor_keys.COMPANY then "Company"
  else if key = cbor_keys.BIRTH_CERT_NUMBER then "birthCertificateNumber"
  else if key = cbor_keys.GIVEN_NAMES then "Given Names"
  else if key = cbor_keys.FAMILY_NAME then "Family Name"
  else if key = cbor_keys.BIRTH_DATE then "Birth Date"
  else if key = cbor_keys.SEX then "Sex"
  else if key = cbor_keys.BIRTH_LOCALITY then "Birth Locality"
  else if key = cbor_keys.COUNTY_FIPS_CODE then "County FIPS Code"
  else if key = cbor_keys.MOTHER then "Mother"
  else if key = cbor_keys.FATHER then "Father"
  else if key = cbor_keys.REGISTRATION_DATE then "Registration Date"
  else toString key

/-- Embeds `CborKeyMapper::string_to_key` (common.rs lines 385-411). Note
that the source has no `"Issuer"` arm in this direction. -/
def string_to_key (key_str : String) : Option Int :=
  match key_str with
  | "Expires" => some cbor_keys.EXPIRES
  | "Not Before" => some cbor_keys.NOT_BEFORE
  | "Issued" => some cbor_keys.ISSUED
  | "Full Name" => some cbor_keys.FULL_NAME
  | "Email" => some cbor_keys.EMAIL
  | "Company" => some cbor_keys.COMPANY
  | "Birth Certificate Number" => some cbor_keys.BIRTH_CERT_NUMBER
  | "Given Names" => some cbor_keys.GIVEN_NAMES
  | "Family Name" => some cbor_keys.FAMILY_NAME
  | "Birth Date" => some cbor_keys.BIRTH_DATE
  | "Sex" => some cbor_keys.SEX
  | "Birth Locality" => some cbor_keys.BIRTH_LOCALITY
  | "County FIPS Code" => some cbor_keys.COUNTY_FIPS_CODE
  | "Mother" => some cbor_keys.MOTHER
  | "Father" => some cbor_keys.FATHER
  | "Registration Date" => some cbor_keys.REGISTRATION_DATE
  | _ => none

end CborKeyMapper

/-! ## P-256 ECDSA signature codecs (src/rust/src/crypto.rs, mdl/holder.rs)

The source delegates parsing to the RustCrypto `p256`/`ecdsa` crates; the
definitions below embed those codecs' documented behaviour, which the two
claims about signatures depend on:
* `Signature::from_slice` accepts exactly 64 bytes, reads `r` and `s` as
  32-byte big-endian scalars, and fails unless both lie in `[1, n-1]`
  where `n` is the P-256 group order;
* `Signature::from_der` parses a DER `SEQUENCE` of two minimally-encoded
  non-negative `INTEGER`s consuming the whole input, with the same scalar
  range requirement.  Only short-form lengths are modelled: a P-256
  signature whose DER payload needs a long-form length necessarily
  carries an integer of more than 33 content bytes, whose value is
  `≥ 2^256 > n` and is rejected by the range check in both the crate and
  this model;
* `Signature::to_bytes`/`to_vec` emits `r` and `s` back as 32-byte
  big-endian fixed-width values. -/

/-- Order of the P-256 (secp256r1) group, the scalar bound used by the
`p256` crate when decoding signature components. -/
def p256Order : Nat :=
  115792089210356248762697446949407573529996955224135760342422259061068512044369

/-- Model of `p256::ecdsa::Signature::from_slice`. -/
def sigFromSlice (bytes : List Nat) : Option (Nat × Nat) :=
  if bytes.length = 64 then
    let r := beNat (bytes.take 32)
    let s := beNat (bytes.drop 32)
    if 0 < r ∧ r < p256Order ∧ 0 < s ∧ s < p256Order then some (r, s) else none
  else none

/-- DER minimality violation: a leading zero content byte is only allowed
when the following byte has its high bit set. -/
def derNonMinimal (b0 : Nat) (tail : List Nat) : Bool :=
  match tail with
  | [] => false
  | b1 :: _ => b0 == 0 && b1 < 128

/-- Model of one DER `INTEGER` read by the `ecdsa` crate's DER parser:
tag `0x02`, short-form length, non-negative minimally-encoded content.
Returns the decoded value and the unconsumed remainder. -/
def parseDerInt : List Nat → Option (Nat × List Nat)
  | 2 :: len :: rest =>
    if len = 0 ∨ 127 < len ∨ rest.length < len then none
    else
      match rest.take len with
      | [] => none
      | b0 :: tail =>
        if 128 ≤ b0 then none
        else if derNonMinimal b0 tail then none
        else some (beNat (rest.take len), rest.drop len)
  | _ => none

/-- Model of `p256::ecdsa::Signature::from_der`: `SEQUENCE` of two DER
integers, full input consumption, scalar range check. -/
def sigFromDer (bytes : List Nat) : Option (Nat × Nat) :=
  match bytes with
  | 48 :: len :: rest =>
    if 127 < len ∨ rest.length ≠ len then none
    else
      match parseDerInt rest with
      | none => none
      | some (r, rest2) =>
        match parseDerInt rest2 with
        | none => none
        | some (s, rest3) =>
          if rest3 = [] ∧ 0 < r ∧ r < p256Order ∧ 0 < s ∧ s < p256Order then
            some (r, s)
          else none
  | _ => none

/-- Model of `p256::ecdsa::Signature::to_vec`: raw fixed-width `r || s`,
each component 32 bytes big-endian. -/
def sigToBytes (sig : Nat × Nat) : List Nat :=
  natToBytes 32 sig.1 ++ natToBytes 32 sig.2

/-- Embeds `CryptoCurveUtils::ensure_raw_fixed_width_signature_encoding`
(crypto.rs lines 57-67): probe the raw parse, then the DER parse; the first
success is re-emitted raw fixed-width; `None` if both fail.  The Rust
`match (from_slice, from_der) { (Ok(s), _) | (_, Ok(s)) => ..., _ => None }`
tries the first alternative first. -/
def ensure_raw_fixed_width_signature_encoding (bytes : List Nat) : Option (List Nat) :=
  match sigFromSlice bytes with
  | some sig => some (sigToBytes sig)
  | none =>
    match sigFromDer bytes with
    | some sig => some (sigToBytes sig)
    | none => none

/-- Embeds `enum SignatureError` (mdl/holder.rs lines 328-336); the
`InvalidSignature` payload carries the `p256` error's display string, which
this model abstracts to a fixed message. -/
inductive SignatureError where
  | InvalidSignature (value : String)
  | TooManyDocuments
  | Generic (value : String)
deriving Repr, DecidableEq

/-- Embeds the signature-decoding stage of `MdlPresentationSession::submit_response`
(mdl/holder.rs lines 253-262): the incoming bytes are parsed with
`p256::ecdsa::Signature::from_slice` ONLY (raw 64-byte `r || s`); on failure
the session returns `SignatureError::InvalidSignature`; on success the
signature is re-emitted as `signature.to_bytes().to_vec()` and handed to
`submit_next_signature`.  The downstream `isomdl` session bookkeeping is
outside the scope of the signature-acceptance claim. -/
def submit_response_signature (signature : List Nat) : Except SignatureError (List Nat) :=
  match sigFromSlice signature with
  | some sig => Except.ok (sigToBytes sig)
  | none => Except.error (SignatureError.InvalidSignature "signature parse error")

/-- Concrete raw fixed-width encoding of the P-256 signature `(r, s) = (1, 1)`. -/
def rawSigOne : List Nat :=
  List.replicate 31 0 ++ [1] ++ (List.replicate 31 0 ++ [1])

/-- Concrete DER encoding of the P-256 signature `(r, s) = (1, 1)`:
`SEQUENCE { INTEGER 1, INTEGER 1 }`. -/
def derSigOne : List Nat := [48, 6, 2, 1, 1, 2, 1, 1]

/-! ## DCQL requested-field derivation (src/rust/src/oid4vp/dc_api/requested_values.rs)

Embeds the part of `find_match` that builds `requested_fields` (lines
103-141): the display name of each matched element is derived from its
element identifier by "snake case to sentence case", and the resulting
field list is then run through the ISO 18013-5 §7.2.5 age-over filter. -/

/-- Splits a character list at every occurrence of `sep`, keeping empty
segments, as Rust's `str::split` does. -/
def splitOnSep (sep : Char) : List Char → List (List Char)
  | [] => [[]]
  | c :: t =>
    if c = sep then [] :: splitOnSep sep t
    else
      match splitOnSep sep t with
      | [] => [[c]]
      | h :: r => (c :: h) :: r

/-- Uppercases the first character of a segment, as
`format!("{}{}", first_letter.to_uppercase(), &s[1..])` does for the ASCII
identifiers this code path processes. -/
def capitalizeFirst : List Char → List Char
  | [] => []
  | c :: t => c.toUpper :: t

/-- Embeds the `displayable_name` derivation in `find_match`
(requested_values.rs lines 103-112): split the element identifier on `'_'`,
capitalize each segment's first letter, join with a space. -/
def sentence_case (s : String) : String :=
  String.mk (List.intercalate [' '] ((splitOnSep '_' s.data).map capitalizeFirst))

/-- Model of Rust `str::starts_with` on the embedded strings. -/
def strStartsWith (s pat : String) : Bool :=
  pat.data.isPrefixOf s.data

/-- Embeds `struct RequestedField180137` as constructed in `find_match`
(requested_values.rs lines 114-125). -/
structure RequestedField180137 where
  id : String
  displayable_name : String
  displayable_value : Option String
  selectively_disclosable : Bool
  intent_to_retain : Bool
  required : Bool
  purpose : Option String
deriving Repr, DecidableEq

/-- Builds the `RequestedField180137` record exactly as `find_match` does
for a query field that resolved to a credential element
(requested_values.rs lines 114-125).  The `displayable_value` comes from
`cbor_to_string` over the credential element (code outside src/); it plays
no role in the age-over filter and is passed through here. -/
def mkRequestedField (element_identifier field_id : String) (intent : Bool)
    (value : Option String) : RequestedField180137 :=
  { id := field_id
    displayable_name := sentence_case element_identifier
    displayable_value := value
    selectively_disclosable := true
    intent_to_retain := intent
    required := true
    purpose := none }

/-- Embeds the stateful age-over filter of `find_match`
(requested_values.rs lines 128-141): a mutable counter
`seen_age_over_attestations` is incremented on every field whose
`displayable_name` starts with `"age_over_"`, and such a field is kept
only while the incremented counter is below 3. -/
def age_over_cap_filter : Nat → List RequestedField180137 → List RequestedField180137
  | _, [] => []
  | seen, f :: rest =>
    if strStartsWith f.displayable_name "age_over_" then
      if seen + 1 < 3 then f :: age_over_cap_filter (seen + 1) rest
      else age_over_cap_filter (seen + 1) rest
    else f :: age_over_cap_filter seen rest

/-- Embeds the `requested_fields` pipeline of `find_match`
(requested_values.rs lines 69-141) for the query fields that resolve to
credential elements.  The input lists, per resolved field, the element
identifier, the generated field id, and the query's `intent_to_retain`
flag, in the order the `BTreeMap::into_values` iteration yields them; the
output is the field list after the age-over filter. -/
def find_match_requested_fields (resolved : List (String × String × Bool)) :
    List RequestedField180137 :=
  age_over_cap_filter 0
    (resolved.map fun q => mkRequestedField q.1 q.2.1 q.2.2 none)

/-- Concrete DCQL query slice requesting three age-over attestations that
all resolve against the credential. -/
def threeAgeOverQuery : List (String × String × Bool) :=
  [("age_over_18", "field-1", false),
   ("age_over_21", "field-2", false),
   ("age_over_65", "field-3", false)]

/-! ## VCDM v2 proof filtering (src/rust/src/credential/json_vc.rs)

Embeds the credential-embedded-proof filter inside `as_vp_token_item`
(json_vc.rs lines 247-268).  Proof entries are JSON objects from the
`json_syntax` crate, whose `Object::get(key)` returns an iterator over ALL
values bound to `key` (duplicate keys are representable) and whose
`Value::as_string` succeeds only on string values. -/

/-- Minimal model of a `json_syntax::Value` as far as the proof filter
observes it: the filter only distinguishes string values from non-string
values and reads object entries. -/
inductive JsonValue where
  | null
  | bool (b : Bool)
  | num (n : Int)
  | str (s : String)
  | arr (items : List JsonValue)
  | obj (entries : List (String × JsonValue))

/-- Model of `json_syntax::Value::as_string`. -/
def JsonValue.asString : JsonValue → Option String
  | .str s => some s
  | _ => none

/-- Model of `Object::get(key).next()`: the first value bound to `key`. -/
def objGetFirst (entries : List (String × JsonValue)) (key : String) : Option JsonValue :=
  (entries.filterMap fun e => if e.1 = key then some e.2 else none).head?

/-- Embeds `const ACCEPTED_CRYPTOSUITES` (json_vc.rs line 40). -/
def ACCEPTED_CRYPTOSUITES : List String := ["ecdsa-rdfc-2019"]

/-- Embeds the proof-filter closure of `as_vp_token_item` (json_vc.rs lines
255-265): `while let Some(cryptosuite) = obj.get("cryptosuite").next()` —
the iterator is re-created from the UNCHANGED object on every loop
iteration, so each iteration re-reads the same first value; if that value
is a string the closure returns the accepted-set membership test, and if
the key is absent the loop exits with `true`.  The model is fuel-indexed:
`none` means the loop has not returned after `fuel` iterations (since the
state never changes, `∀ fuel, ... = none` is divergence). -/
def proof_filter_loop : Nat → List (String × JsonValue) → Option Bool
  | 0, _ => none
  | fuel + 1, entries =>
    match objGetFirst entries "cryptosuite" with
    | none => some true
    | some v =>
      match v.asString with
      | some suite => some (ACCEPTED_CRYPTOSUITES.contains suite)
      | none => proof_filter_loop fuel entries

/-- Concrete proof object whose first `cryptosuite` value is not a string. -/
def nonStringSuiteProof : List (String × JsonValue) :=
  [("type", JsonValue.str "DataIntegrityProof"), ("cryptosuite", JsonValue.num 42)]

/-- Concrete proof object with the accepted cryptosuite. -/
def acceptedSuiteProof : List (String × JsonValue) :=
  [("cryptosuite", JsonValue.str "ecdsa-rdfc-2019")]

/-- Concrete proof object with an unaccepted (string) cryptosuite. -/
def rejectedSuiteProof : List (String × JsonValue) :=
  [("cryptosuite", JsonValue.str "eddsa-rdfc-2022")]

/-- Concrete proof object carrying no `cryptosuite` entry at all. -/
def noSuiteProof : List (String × JsonValue) :=
  [("type", JsonValue.str "Ed25519Signature2020")]

/-! ## CWT claim validation (src/rust/src/credential/cwt.rs)

Embeds `Cwt::validate_claims` (cwt.rs lines 250-273) and the eager-claims
prefix of `Cwt::validate` (lines 99-137).  The `cose_rs` claim getter and
the `OffsetDateTime` conversion are external crates; their combined outcome
for the `exp` claim is represented as data: `.error msg` when the claim is
present but unparseable (either failure produces `CwtError::MalformedClaim`
in the source), `.ok none` when absent, `.ok (some t)` when it parses to
the instant `t` (unix seconds). -/

/-- Embeds the variants of `enum CwtError` (cwt.rs lines 353-403) that the
eager claim validation can produce; `CwtExpired` carries the display string
of the expiry instant in the source, represented here by the instant
itself. -/
inductive CwtError where
  | MalformedClaim (claim message ctx : String)
  | CwtExpired (exp : Int)
  | Trust (message : String)
deriving Repr, DecidableEq

/-- Model of a parsed CWT as far as `validate_claims` observes it. -/
structure CwtClaims where
  expClaim : Except String (Option Int)

/-- Embeds `Cwt::validate_claims` (cwt.rs lines 250-273): propagate a
malformed `exp`, reject a parsed `exp` strictly before `now` with
`CwtExpired`, accept everything else (absent `exp` included). -/
def validate_claims (c : CwtClaims) (now : Int) : Except CwtError Unit :=
  match c.expClaim with
  | Except.error e => Except.error (CwtError.MalformedClaim "exp" e "could not parse")
  | Except.ok none => Except.ok ()
  | Except.ok (some exp) =>
    if exp < now then Except.error (CwtError.CwtExpired exp) else Except.ok ()

/-- Embeds the control flow of `Cwt::validate` (cwt.rs lines 99-137):
`self.validate_claims()?` runs first; only afterwards does the trust
evaluation (x5chain certificate chain or issuer-DID resolution, lines
102-137) run, abstracted here as an arbitrary outcome `trustPath`. -/
def Cwt.validate (c : CwtClaims) (now : Int)
    (trustPath : Except CwtError Unit) : Except CwtError Unit := do
  validate_claims c now
  trustPath

/-! ## DC-API response encoder selection (src/rust/src/oid4vp/dc_api/build_response.rs)

Embeds `Responder::new` (build_response.rs lines 26-58).  The helpers it
calls live in `oid4vp/iso_18013_7/build_response.rs`, which is not under
src/; they are modelled from the spec:
* `get_state_from_request` — "Modelled from the spec: `Jwe{alg, enc,
  state?, verifier_jwk}` / `Json{state?}`", i.e. it yields the request's
  optional `state` parameter;
* `get_jwk_from_client_metadata` — "Modelled from the spec: requiring the
  client metadata to ... (and carries a verifier JWK)", i.e. it yields the
  verifier JWK from the metadata or fails when absent.
The `openid4vp` crate accessors `client_metadata()`,
`authorization_encrypted_response_alg()` and
`authorization_encrypted_response_enc()` each yield a value or a parsing
error (`ParsingErrorContext`), represented as `Option` fields where `none`
is the parsing error. -/

/-- Model of `openid4vp::...::ResponseMode`: the two DC-API modes the
source matches on, and everything else. -/
inductive ResponseMode where
  | DcApi
  | DcApiJwt
  | Other (name : String)
deriving Repr, DecidableEq

/-- Model of the client metadata fields read by `Responder::new`; `none`
means the field is absent, which surfaces as a parsing error in the
source. -/
structure ClientMetadata where
  verifierJwk : Option String
  encryptedResponseAlg : Option String
  encryptedResponseEnc : Option String
deriving Repr, DecidableEq

/-- Model of the `AuthorizationRequestObject` fields read by
`Responder::new`; `clientMetadata = none` is a metadata parsing error. -/
structure AuthRequest where
  responseMode : ResponseMode
  state : Option String
  clientMetadata : Option ClientMetadata
deriving Repr, DecidableEq

/-- Embeds `enum Responder` (build_response.rs lines 13-23). -/
inductive Responder where
  | Json (state : Option String)
  | Jwe (alg enc : String) (state : Option String) (verifier_jwk : String)
deriving Repr, DecidableEq

/-- Embeds `Responder::new` (build_response.rs lines 26-58): `dc_api` gives
the plain JSON responder; `dc_api.jwt` requires parseable client metadata
carrying a verifier JWK, then `alg = ECDH-ES`, then `enc = A128GCM`; any
other response mode is unsupported. -/
def Responder.new (request : AuthRequest) : Except String Responder :=
  let state := request.state
  match request.responseMode with
  | ResponseMode.DcApi => Except.ok (Responder.Json state)
  | ResponseMode.DcApiJwt =>
    match request.clientMetadata with
    | none => Except.error "client metadata parsing error"
    | some meta =>
      match meta.verifierJwk with
      | none => Except.error "no verifier jwk in client metadata"
      | some jwk =>
        match meta.encryptedResponseAlg with
        | none => Except.error "authorization encrypted response alg parsing error"
        | some alg =>
          if alg ≠ "ECDH-ES" then Except.error ("unsupported encryption alg: " ++ alg)
          else
            match meta.encryptedResponseEnc with
            | none => Except.error "authorization encrypted response enc parsing error"
            | some enc =>
              if enc ≠ "A128GCM" then Except.error ("unsupported encryption scheme: " ++ enc)
              else Except.ok (Responder.Jwe alg enc state jwk)
  | ResponseMode.Other name => Except.error ("unsupported response mode: " ++ name)

/-! ## CborValue (src/rust/src/common.rs, lines 98-322)

Embeds `enum CborValue` and its `Ord`/`Display` implementations, plus the
conversion from `serde_cbor::Value`.  Constructor names are lowercased
because Lean cannot reuse `Bool`/`Float` etc. as constructor names without
clashing with the payload types.  `f64` is embedded as Lean's `Float`
(both are IEEE-754 binary64).  The Rust `HashMap<String, CborValue>` is
embedded as the list of its entries in iteration order. -/

/-- Embeds `enum CborValue` (common.rs lines 228-239); `Tag` inlines the
`CborTag { id: u64, value }` pair (common.rs lines 98-102). -/
inductive CborValue where
  | null
  | bool (v : Bool)
  | integer (v : CborInteger)
  | float (v : Float)
  | bytes (items : List Nat)
  | text (v : String)
  | array (values : List CborValue)
  | itemMap (entries : List (String × CborValue))
  | tag (id : Nat) (value : CborValue)

/-- Embeds `CborValue::major_type` (common.rs lines 301-322): an integer is
class 0 or 1 according to the sign of its decoded `i128`; null, booleans
and floats all share the simple-value class 7. -/
def CborValue.majorType : CborValue → Nat
  | .null => 7
  | .bool _ => 7
  | .integer v => if 0 ≤ v.toI128 then 0 else 1
  | .tag _ _ => 6
  | .float _ => 7
  | .bytes _ => 2
  | .text _ => 3
  | .array _ => 4
  | .itemMap _ => 5

/-- Model of `f64::partial_cmp(..).unwrap_or(Ordering::Equal)` (common.rs
line 290): `Less`/`Greater` for strictly ordered operands, `Equal` both
for equal operands and for the incomparable (NaN) case mapped through
`unwrap_or`. -/
def floatCmpModel (a b : Float) : Ordering :=
  if a < b then Ordering.lt else if b < a then Ordering.gt else Ordering.eq

/-- Lexicographic comparison of byte vectors, the `Ord` instance of
`Vec<u8>` used for `CborValue::Bytes` (common.rs line 291). -/
def natListCmp : List Nat → List Nat → Ordering
  | [], [] => Ordering.eq
  | [], _ :: _ => Ordering.lt
  | _ :: _, [] => Ordering.gt
  | a :: xs, b :: ys =>
    match compare a b with
    | Ordering.eq => natListCmp xs ys
    | o => o

mutual

/-- Embeds `impl Ord for CborValue::cmp` (common.rs lines 278-299).  Values
of different major types compare by major type.  Within a major type the
source matches on constructor pairs; the residual `_ => unreachable!(...)`
arm PANICS, which this model renders as `none` — it is reachable, because
`Null`, `Bool` and `Float` are distinct constructors sharing major type 7.
Rust iterator comparison (`Iterator::cmp`) is elementwise with the shorter
sequence ordered first; `HashMap` iteration order is whatever the map
yields, represented by the entry-list order. -/
def CborValue.cmp (x y : CborValue) : Option Ordering :=
  if x.majorType ≠ y.majorType then some (compare x.majorType y.majorType)
  else
    match x, y with
    | .null, .null => some Ordering.eq
    | .bool a, .bool b => some (compare a b)
    | .integer a, .integer b => some (compare a.toI128 b.toI128)
    | .float a, .float b => some (floatCmpModel a b)
    | .bytes a, .bytes b => some (natListCmp a b)
    | .text a, .text b => some (compare a b)
    | .array a, .array b => CborValue.cmpList a b
    | .itemMap a, .itemMap b =>
      match compare a.length b.length with
      | Ordering.eq => CborValue.cmpEntries a b
      | o => some o
    | .tag i a, .tag j b =>
      match compare i j with
      | Ordering.eq => CborValue.cmp a b
      | o => some o
    | _, _ => none

/-- Elementwise comparison of `CborValue` sequences (`a.iter().cmp(b.iter())`
for arrays, common.rs line 293); propagates the panic of an element
comparison. -/
def CborValue.cmpList : List CborValue → List CborValue → Option Ordering
  | [], [] => some Ordering.eq
  | [], _ :: _ => some Ordering.lt
  | _ :: _, [] => some Ordering.gt
  | a :: xs, b :: ys =>
    match CborValue.cmp a b with
    | none => none
    | some Ordering.eq => CborValue.cmpList xs ys
    | some o => some o

/-- Elementwise comparison of map entries as `(String, CborValue)` pairs
(`a.iter().cmp(b.iter())` for maps, common.rs line 294), key first, then
value. -/
def CborValue.cmpEntries :
    List (String × CborValue) → List (String × CborValue) → Option Ordering
  | [], [] => some Ordering.eq
  | [], _ :: _ => some Ordering.lt
  | _ :: _, [] => some Ordering.gt
  | (k1, v1) :: xs, (k2, v2) :: ys =>
    match compare k1 k2 with
    | Ordering.eq =>
      match CborValue.cmp v1 v2 with
      | none => none
      | some Ordering.eq => CborValue.cmpEntries xs ys
      | some o => some o
    | o => some o

end

/-- Rendering of an `f64` through Rust's `Display`.  Lean's `Float`
formatter does not reproduce Rust's shortest-representation formatting
textually; no claim in this development depends on the rendering of a
float, only on renderings of null and of non-float values. -/
def floatToString (v : Float) : String := toString v

mutual

/-- Embeds `impl Display for CborValue` (common.rs lines 124-162): null
renders as the empty string; bytes and arrays join their elements' texts
with commas; maps render as brace-enclosed `"key":"value"` entries joined
by commas; a tag renders as its payload. -/
def CborValue.display : CborValue → String
  | .null => ""
  | .bool v => toString v
  | .integer v => v.to_text
  | .float v => floatToString v
  | .bytes items => String.intercalate "," (items.map fun b => toString b)
  | .text v => v
  | .array vs => String.intercalate "," (CborValue.displayList vs)
  | .itemMap entries =>
    "\x7b" ++ String.intercalate "," (CborValue.displayEntries entries) ++ "\x7d"
  | .tag _ v => CborValue.display v

/-- Displays of the elements of an array, in order. -/
def CborValue.displayList : List CborValue → List String
  | [] => []
  | v :: t => CborValue.display v :: CborValue.displayList t

/-- Displays of the entries of a map, each rendered `"key":"value"`. -/
def CborValue.displayEntries : List (String × CborValue) → List String
  | [] => []
  | (k, v) :: t =>
    ("\"" ++ k ++ "\":\"" ++ CborValue.display v ++ "\"") :: CborValue.displayEntries t

end

/-! ## Conversion from serde_cbor (src/rust/src/common.rs, lines 241-262) -/

/-- Model of `serde_cbor::Value`: the nine public variants plus the
`#[doc(hidden)] __Hidden` variant that makes the enum non-exhaustive,
which is exactly what the conversion's `_ => Self::Null` arm catches.
The `BTreeMap` payload of `Map` is embedded as its entry list in order. -/
inductive SerdeValue where
  | null
  | bool (b : Bool)
  | integer (n : Int)
  | float (v : Float)
  | bytes (b : List Nat)
  | text (s : String)
  | array (items : List SerdeValue)
  | map (entries : List (SerdeValue × SerdeValue))
  | tag (id : Nat) (value : SerdeValue)
  | hidden

mutual

/-- Embeds `impl From<serde_cbor::Value> for CborValue` (common.rs lines
241-262): a total conversion; map keys are converted and then stringified
through `CborValue`'s `Display`; every variant not explicitly matched
(i.e. the hidden variant) falls to `_ => Self::Null`.  The source collects
map entries into a `HashMap`; the embedding keeps the entry list. -/
def CborValue.fromSerde : SerdeValue → CborValue
  | .null => CborValue.null
  | .bool b => CborValue.bool b
  | .integer v => CborValue.integer (CborInteger.fromI128 v)
  | .float v => CborValue.float v
  | .bytes b => CborValue.bytes b
  | .text s => CborValue.text s
  | .array a => CborValue.array (CborValue.fromSerdeList a)
  | .map m => CborValue.itemMap (CborValue.fromSerdeEntries m)
  | .tag i v => CborValue.tag i (CborValue.fromSerde v)
  | .hidden => CborValue.null

/-- Converts the elements of a serde array, in order. -/
def CborValue.fromSerdeList : List SerdeValue → List CborValue
  | [] => []
  | v :: t => CborValue.fromSerde v :: CborValue.fromSerdeList t

/-- Converts the entries of a serde map: each key is converted and
stringified (`CborValue::from(k).to_string()`), each value converted. -/
def CborValue.fromSerdeEntries :
    List (SerdeValue × SerdeValue) → List (String × CborValue)
  | [] => []
  | (k, v) :: t =>
    (CborValue.display (CborValue.fromSerde k), CborValue.fromSerde v)
      :: CborValue.fromSerdeEntries t

end

/-- Sign of an `Ordering`, for stating the CBOR ordering claim. -/
def ordSign : Ordering → Int
  | Ordering.lt => -1
  | Ordering.eq => 0
  | Ordering.gt => 1

/-- Sign of an integer, for stating the CBOR ordering claim. -/
def intSign (i : Int) : Int :=
  if i < 0 then -1 else if i = 0 then 0 else 1

/-! ## Theorems -/

/-- C2: the claim asserts `key_to_string (string_to_key L) = L` for every
label in the enumerated table, `"Issuer"` included.  The code refutes it:
`string_to_key "Birth Certificate Number"` maps to `-70011`, but
`key_to_string (-70011)` renders the camel-cased `"birthCertificateNumber"`,
and `"Issuer"` is not accepted by `string_to_key` at all (while
`key_to_string 1 = "Issuer"`).  The round trip does hold on the other 15
labels of the table. -/
theorem c2_key_mapper_round_trip_fails :
    CborKeyMapper.string_to_key "Birth Certificate Number" = some (-70011) ∧
    CborKeyMapper.key_to_string (-70011) = "birthCertificateNumber" ∧
    CborKeyMapper.key_to_string (-70011) ≠ "Birth Certificate Number" ∧
    CborKeyMapper.string_to_key "Issuer" = none ∧
    CborKeyMapper.key_to_string 1 = "Issuer" ∧
    (["Expires", "Not Before", "Issued", "Full Name", "Email", "Company",
      "Given Names", "Family Name", "Birth Date", "Sex", "Birth Locality",
      "County FIPS Code", "Mother", "Father", "Registration Date"].all
        fun L => (CborKeyMapper.string_to_key L).map CborKeyMapper.key_to_string
          == some L) = true := by
  refine ⟨by decide, by decide, by decide, by decide, by decide, by decide⟩

/-- C1: the claim asserts `find_match` caps `age_over_*` requested fields
at two.  The code refutes it: the cap filter tests
`displayable_name.starts_with("age_over_")`, but displayable names have
already been sentence-cased (`age_over_18` becomes `"Age Over 18"`), so
the predicate never fires and all three requested age-over fields survive
the filter. -/
theorem c1_age_over_cap_never_applies :
    (find_match_requested_fields threeAgeOverQuery).length = 3 ∧
    (find_match_requested_fields threeAgeOverQuery).map (fun f => f.displayable_name)
      = ["Age Over 18", "Age Over 21", "Age Over 65"] ∧
    strStartsWith (sentence_case "age_over_18") "age_over_" = false ∧
    strStartsWith "age_over_18" "age_over_" = true := by
  refine ⟨by decide, by decide, by decide, by decide⟩

/-- C4: the claim asserts the VP-token builder terminates on every input
and strips exactly the proofs with unaccepted cryptosuites.  The code
refutes termination: on a proof object whose first `cryptosuite` value is
not a string, the `while let` loop re-reads the same value forever (no
fuel suffices).  On terminating inputs the filter keeps the accepted
suite, drops an unaccepted string suite, and keeps a proof carrying no
`cryptosuite` entry at all (a second divergence from "retains exactly the
accepted set"). -/
theorem c4_proof_filter_diverges :
    (∀ fuel, proof_filter_loop fuel nonStringSuiteProof = none) ∧
    proof_filter_loop 1 acceptedSuiteProof = some true ∧
    proof_filter_loop 1 rejectedSuiteProof = some false ∧
    proof_filter_loop 1 noSuiteProof = some true := by
  refine ⟨?_, rfl, rfl, rfl⟩
  intro fuel
  induction fuel with
  | zero => rfl
  | succ n ih => exact ih

/-- C9: `Cwt::validate` runs `validate_claims` first, so a claims set whose
`exp` parses to an instant before `now` yields `CwtExpired` regardless of
the trust-evaluation outcome, and a claims set without `exp` passes the
eager check. -/
theorem c9_exp_validated_eagerly :
    (∀ (c : CwtClaims) (now exp : Int) (trustPath : Except CwtError Unit),
      c.expClaim = Except.ok (some exp) → exp < now →
      Cwt.validate c now trustPath = Except.error (CwtError.CwtExpired exp)) ∧
    (∀ (c : CwtClaims) (now : Int),
      c.expClaim = Except.ok none → validate_claims c now = Except.ok ()) := by
  constructor
  · intro c now exp trustPath hexp hlt
    simp [Cwt.validate, validate_claims, hexp, hlt, Bind.bind, Except.bind]
  · intro c now hexp
    simp [validate_claims, hexp]

/-- C9 witness: the theorem applied at a concrete expired claims set and a
concrete `exp`-free claims set. -/
theorem c9_exp_validated_eagerly_witness :
    Cwt.validate ⟨Except.ok (some 5)⟩ 10 (Except.ok ())
      = Except.error (CwtError.CwtExpired 5) ∧
    validate_claims ⟨Except.ok none⟩ 10 = Except.ok () :=
  ⟨c9_exp_validated_eagerly.1 ⟨Except.ok (some 5)⟩ 10 5 (Except.ok ()) rfl (by norm_num),
   c9_exp_validated_eagerly.2 ⟨Except.ok none⟩ 10 rfl⟩

/-- C10: the conversion from the underlying CBOR value type is a total
function (it is defined on every `SerdeValue`, the hidden non-exhaustive
variant included); the hidden variant maps to `CborValue.null`, making it
indistinguishable from a genuine CBOR null, including when it occurs as a
map key that gets stringified through `Display`. -/
theorem c10_from_serde_total_hidden_is_null :
    CborValue.fromSerde SerdeValue.hidden = CborValue.null ∧
    CborValue.fromSerde SerdeValue.hidden = CborValue.fromSerde SerdeValue.null ∧
    (∀ (v : SerdeValue) (rest : List (SerdeValue × SerdeValue)),
      CborValue.fromSerde (SerdeValue.map ((SerdeValue.hidden, v) :: rest))
        = CborValue.fromSerde (SerdeValue.map ((SerdeValue.null, v) :: rest))) := by
  refine ⟨rfl, rfl, fun v rest => ?_⟩
  simp [CborValue.fromSerde, CborValue.fromSerdeEntries, CborValue.display]

/-- C5: for values of differing major types, `cmp` compares the major types
and the sign equation of the claim holds.  The claim's further assertion
that `cmp` is a total order fails: on equal major types the source matches
constructor pairs and its residual arm is `unreachable!()`, which panics —
reachable for distinct simple-type constructors such as `Null` vs
`Bool(true)` (both major type 7), rendered `none` in the embedding. -/
theorem c5_cmp_major_type_sign :
    (∀ x y : CborValue, x.majorType ≠ y.majorType →
      CborValue.cmp x y = some (compare x.majorType y.majorType) ∧
      ordSign (compare x.majorType y.majorType)
        = intSign ((x.majorType : Int) - (y.majorType : Int))) ∧
    CborValue.cmp CborValue.null (CborValue.bool true) = none := by
  constructor
  · intro x y h
    constructor
    · rw [CborValue.cmp.eq_def, if_pos h]
    · rcases Nat.lt_trichotomy x.majorType y.majorType with hlt | heq | hgt
      · rw [Nat.compare_eq_lt.mpr hlt]
        simp only [ordSign, intSign]
        split_ifs <;> omega
      · exact absurd heq h
      · rw [Nat.compare_eq_gt.mpr hgt]
        simp only [ordSign, intSign]
        split_ifs <;> omega
  · rfl

/-- C5 witness: the theorem applied at a byte string and a text string
(major types 2 and 3). -/
theorem c5_cmp_major_type_sign_witness :
    CborValue.cmp (CborValue.bytes [1]) (CborValue.text "a")
      = some (compare (CborValue.bytes [1]).majorType (CborValue.text "a").majorType) ∧
    ordSign (compare (CborValue.bytes [1]).majorType (CborValue.text "a").majorType)
      = intSign (((CborValue.bytes [1]).majorType : Int)
          - ((CborValue.text "a").majorType : Int)) :=
  c5_cmp_major_type_sign.1 (CborValue.bytes [1]) (CborValue.text "a") (by decide)

/-- C8: `Responder::new` on `dc_api.jwt` succeeds exactly when the client
metadata parses, carries a verifier JWK, and advertises `alg = ECDH-ES`
and `enc = A128GCM`, in which case the responder is the corresponding
`Jwe`; `dc_api` yields the plain JSON responder; every other response mode
is rejected as unsupported. -/
theorem c8_responder_new_selection :
    (∀ (st : Option String) (md : Option ClientMetadata) (resp : Responder),
      Responder.new ⟨ResponseMode.DcApiJwt, st, md⟩ = Except.ok resp ↔
        (∃ m jwk, md = some m ∧ m.verifierJwk = some jwk ∧
          m.encryptedResponseAlg = some "ECDH-ES" ∧
          m.encryptedResponseEnc = some "A128GCM" ∧
          resp = Responder.Jwe "ECDH-ES" "A128GCM" st jwk)) ∧
    (∀ (st : Option String) (md : Option ClientMetadata),
      Responder.new ⟨ResponseMode.DcApi, st, md⟩ = Except.ok (Responder.Json st)) ∧
    (∀ (st : Option String) (md : Option ClientMetadata) (name : String),
      Responder.new ⟨ResponseMode.Other name, st, md⟩
        = Except.error ("unsupported response mode: " ++ name)) := by
  refine ⟨?_, fun st md => rfl, fun st md name => rfl⟩
  intro st md resp
  cases md with
  | none => simp [Responder.new]
  | some m =>
    obtain ⟨jwk?, alg?, enc?⟩ := m
    cases jwk? with
    | none => simp [Responder.new]
    | some jwk =>
      cases alg? with
      | none => simp [Responder.new]
      | some alg =>
        cases enc? with
        | none =>
          by_cases halg : alg = "ECDH-ES" <;> simp [Responder.new, halg]
        | some enc =>
          by_cases halg : alg = "ECDH-ES" <;>
              by_cases henc : enc = "A128GCM" <;>
              simp [Responder.new, halg, henc]
          subst_vars
          constructor
          · intro hh
            exact hh.symm
          · intro hh
            exact hh.symm

/-- C8 witness: the characterization applied at concrete metadata
advertising `ECDH-ES`/`A128GCM` with a verifier JWK, and at a concrete
unsupported pairing. -/
theorem c8_responder_new_selection_witness :
    Responder.new ⟨ResponseMode.DcApiJwt, some "state0",
        some ⟨some "jwk0", some "ECDH-ES", some "A128GCM"⟩⟩
      = Except.ok (Responder.Jwe "ECDH-ES" "A128GCM" (some "state0") "jwk0") ∧
    ¬ Responder.new ⟨ResponseMode.DcApiJwt, none,
        some ⟨some "jwk0", some "ECDH-ES", some "A256GCM"⟩⟩
      = Except.ok (Responder.Jwe "ECDH-ES" "A256GCM" none "jwk0") := by
  constructor
  · exact (c8_responder_new_selection.1 (some "state0")
      (some ⟨some "jwk0", some "ECDH-ES", some "A128GCM"⟩)
      (Responder.Jwe "ECDH-ES" "A128GCM" (some "state0") "jwk0")).mpr
      ⟨_, _, rfl, rfl, rfl, rfl, rfl⟩
  · intro hcontra
    obtain ⟨m, jwk, hm, _, _, henc, _⟩ :=
      (c8_responder_new_selection.1 none
        (some ⟨some "jwk0", some "ECDH-ES", some "A256GCM"⟩) _).mp hcontra
    cases hm
    simp at henc

/-! ### Byte-arithmetic lemmas for the CborInteger and signature claims -/

theorem foldl_beNat (l : List Nat) (a : Nat) :
    l.foldl (fun acc b => acc * 256 + b) a = a * 256 ^ l.length + beNat l := by
  induction l generalizing a with
  | nil => simp [beNat]
  | cons b t ih =>
    simp only [List.foldl_cons, List.length_cons, beNat]
    rw [ih (a * 256 + b), ih (0 * 256 + b)]
    ring

theorem beNat_cons (b : Nat) (t : List Nat) :
    beNat (b :: t) = b * 256 ^ t.length + beNat t := by
  show (b :: t).foldl (fun acc b => acc * 256 + b) 0 = _
  simp only [List.foldl_cons]
  rw [foldl_beNat]
  ring_nf

theorem beNat_append (l1 l2 : List Nat) :
    beNat (l1 ++ l2) = beNat l1 * 256 ^ l2.length + beNat l2 := by
  show (l1 ++ l2).foldl _ 0 = _
  rw [List.foldl_append]
  exact foldl_beNat l2 (beNat l1)

theorem beNat_lt (l : List Nat) (h : ∀ x ∈ l, x < 256) :
    beNat l < 256 ^ l.length := by
  induction l with
  | nil => simp [beNat]
  | cons b t ih =>
    rw [beNat_cons, List.length_cons, pow_succ]
    have hb : b < 256 := h b (by simp)
    have ht : beNat t < 256 ^ t.length := ih fun x hx => h x (by simp [hx])
    calc b * 256 ^ t.length + beNat t
        < b * 256 ^ t.length + 256 ^ t.length := by omega
      _ = (b + 1) * 256 ^ t.length := by ring
      _ ≤ 256 * 256 ^ t.length := by
          exact Nat.mul_le_mul_right _ (by omega)
      _ = 256 ^ t.length * 256 := by ring

theorem natToBytes_length (w : Nat) : ∀ v, (natToBytes w v).length = w := by
  induction w with
  | zero => intro v; rfl
  | succ w ih => intro v; simp [natToBytes, ih]

theorem natToBytes_mem_lt (w : Nat) :
    ∀ v, ∀ x ∈ natToBytes w v, x < 256 := by
  induction w with
  | zero => intro v x hx; simp [natToBytes] at hx
  | succ w ih =>
    intro v x hx
    simp only [natToBytes, List.mem_append, List.mem_singleton] at hx
    rcases hx with hx | hx
    · exact ih _ x hx
    · subst hx
      exact Nat.mod_lt _ (by norm_num)

theorem beNat_natToBytes (w : Nat) : ∀ v, beNat (natToBytes w v) = v % 256 ^ w := by
  induction w with
  | zero => intro v; simp [natToBytes, beNat, Nat.mod_one]
  | succ w ih =>
    intro v
    rw [natToBytes, beNat_append, ih]
    have h1 : beNat [v % 256] = v % 256 := by simp [beNat]
    have h2 : ([v % 256] : List Nat).length = 1 := rfl
    have h3 : v % 256 ^ (w + 1) = v % 256 + 256 * (v / 256 % 256 ^ w) := by
      rw [show (256 : Nat) ^ (w + 1) = 256 * 256 ^ w from by ring]
      exact Nat.mod_mul
    rw [h1, h2, h3]
    ring

theorem lor_shiftLeft_add {a : Nat} (b k : Nat) (h : a < 2 ^ k) :
    a ||| (b <<< k) = 2 ^ k * b + a := by
  rw [Nat.shiftLeft_eq, Nat.lor_comm, mul_comm b (2 ^ k), ← Nat.mul_add_lt_is_or h b]

theorem enumFrom_fold_beNat (m : List Nat) :
    ∀ (k acc : Nat), (∀ x ∈ m, x < 256) → acc < 2 ^ (k * 8) →
    (m.enumFrom k).foldl (fun acc p => acc ||| (p.2 <<< (p.1 * 8))) acc
      = beNat m.reverse * 2 ^ (k * 8) + acc := by
  induction m with
  | nil => intro k acc _ _; simp [beNat]
  | cons x t ih =>
    intro k acc hm hacc
    have hx : x < 256 := hm x (by simp)
    simp only [List.enumFrom, List.foldl_cons]
    rw [lor_shiftLeft_add x (k * 8) hacc]
    have hacc' : 2 ^ (k * 8) * x + acc < 2 ^ ((k + 1) * 8) := by
      have hk : (k + 1) * 8 = k * 8 + 8 := by ring
      rw [hk, pow_add]
      have : 2 ^ (k * 8) * x + acc < 2 ^ (k * 8) * 256 := by nlinarith
      calc 2 ^ (k * 8) * x + acc < 2 ^ (k * 8) * 256 := this
        _ = 2 ^ (k * 8) * 2 ^ 8 := by norm_num
    rw [ih (k + 1) _ (fun y hy => hm y (by simp [hy])) hacc']
    rw [show (x :: t).reverse = t.reverse ++ [x] from by simp]
    rw [beNat_append]
    have h1 : beNat [x] = x := by simp [beNat]
    have h2 : ([x] : List Nat).length = 1 := rfl
    rw [h1, h2]
    have hk : (k + 1) * 8 = k * 8 + 8 := by ring
    rw [hk, pow_add]
    ring_nf

theorem enum_fold_beNat (l : List Nat) (h : ∀ x ∈ l, x < 256) :
    (l.reverse.enum).foldl (fun acc p => acc ||| (p.2 <<< (p.1 * 8))) 0 = beNat l := by
  have := enumFrom_fold_beNat l.reverse 0 0
    (fun x hx => h x (List.mem_reverse.mp hx)) (by norm_num)
  simpa [List.enum] using this

theorem natToBytes_split (w1 w2 : Nat) :
    ∀ v, natToBytes (w1 + w2) v = natToBytes w1 (v / 256 ^ w2) ++ natToBytes w2 v := by
  induction w2 with
  | zero => intro v; simp [natToBytes]
  | succ w ih =>
    intro v
    rw [show w1 + (w + 1) = (w1 + w) + 1 from rfl]
    rw [natToBytes, ih (v / 256), natToBytes, List.append_assoc]
    rw [Nat.div_div_eq_div_mul, mul_comm 256 (256 ^ w), ← pow_succ]

/-- C6: for every `n` in the `i128` range, the 16-byte big-endian buffer
built by `From<i128>` reassembles through `lower_bytes`/`upper_bytes` and
the two's-complement `u128 → i128` reinterpretation to `n` itself, so
`to_text` renders the decimal representation of `n` (sign included), and
the buffer length is invariantly 16. -/
theorem c6_integer_fidelity (n : Int) (hlo : -(2 ^ 127) ≤ n) (hhi : n < 2 ^ 127) :
    (CborInteger.fromI128 n).to_text = toString n ∧
    (CborInteger.fromI128 n).bytes.length = 16 := by
  refine ⟨?_, rfl⟩
  have hbytes : (CborInteger.fromI128 n).bytes = natToBytes 16 (n % 2 ^ 128).toNat := by
    have hexp : natToBytes 16 (n % 2 ^ 128).toNat =
        [(n % 2 ^ 128).toNat / 256 ^ 15 % 256, (n % 2 ^ 128).toNat / 256 ^ 14 % 256,
         (n % 2 ^ 128).toNat / 256 ^ 13 % 256, (n % 2 ^ 128).toNat / 256 ^ 12 % 256,
         (n % 2 ^ 128).toNat / 256 ^ 11 % 256, (n % 2 ^ 128).toNat / 256 ^ 10 % 256,
         (n % 2 ^ 128).toNat / 256 ^ 9 % 256, (n % 2 ^ 128).toNat / 256 ^ 8 % 256,
         (n % 2 ^ 128).toNat / 256 ^ 7 % 256, (n % 2 ^ 128).toNat / 256 ^ 6 % 256,
         (n % 2 ^ 128).toNat / 256 ^ 5 % 256, (n % 2 ^ 128).toNat / 256 ^ 4 % 256,
         (n % 2 ^ 128).toNat / 256 ^ 3 % 256, (n % 2 ^ 128).toNat / 256 ^ 2 % 256,
         (n % 2 ^ 128).toNat / 256 ^ 1 % 256, (n % 2 ^ 128).toNat % 256] := by
      simp [natToBytes, Nat.div_div_eq_div_mul]
    rw [hexp]
    simp only [CborInteger.fromI128, List.cons.injEq, and_true]
    refine ⟨?_, ?_, ?_, ?_, ?_, ?_, ?_, ?_, ?_, ?_, ?_, ?_, ?_, ?_, ?_, ?_⟩ <;> omega
  have hsplit : natToBytes 16 (n % 2 ^ 128).toNat =
      natToBytes 8 ((n % 2 ^ 128).toNat / 256 ^ 8) ++ natToBytes 8 (n % 2 ^ 128).toNat := by
    rw [show (16 : Nat) = 8 + 8 from rfl, natToBytes_split]
  have hlow : (CborInteger.fromI128 n).lower_bytes = (n % 2 ^ 128).toNat % 256 ^ 8 := by
    rw [CborInteger.lower_bytes, hbytes, hsplit,
      List.drop_left' (natToBytes_length 8 _),
      List.take_of_length_le (by rw [natToBytes_length]),
      enum_fold_beNat _ (natToBytes_mem_lt 8 _), beNat_natToBytes]
  have hup : (CborInteger.fromI128 n).upper_bytes
      = (n % 2 ^ 128).toNat / 256 ^ 8 % 256 ^ 8 := by
    rw [CborInteger.upper_bytes, hbytes, hsplit,
      List.take_left' (natToBytes_length 8 _),
      enum_fold_beNat _ (natToBytes_mem_lt 8 _), beNat_natToBytes]
  show toString _ = toString n
  congr 1
  rw [hlow, hup]
  have hlowlt : (n % 2 ^ 128).toNat % 256 ^ 8 < 2 ^ 64 := by
    have : (n % 2 ^ 128).toNat % 256 ^ 8 < 256 ^ 8 := Nat.mod_lt _ (by norm_num)
    omega
  rw [Nat.lor_comm, lor_shiftLeft_add _ 64 hlowlt]
  split <;> omega

/-- C6 witness: the fidelity theorem applied at the concrete input `-42`. -/
theorem c6_integer_fidelity_witness :
    (CborInteger.fromI128 (-42)).to_text = toString (-42 : Int) ∧
    (CborInteger.fromI128 (-42)).bytes.length = 16 :=
  c6_integer_fidelity (-42) (by norm_num) (by norm_num)

/-! ### Signature-codec lemmas for the normalisation claims -/

theorem sigFromSlice_bounds {bytes : List Nat} {p : Nat × Nat}
    (h : sigFromSlice bytes = some p) :
    0 < p.1 ∧ p.1 < p256Order ∧ 0 < p.2 ∧ p.2 < p256Order := by
  simp only [sigFromSlice] at h
  split_ifs at h with h1 h2
  · simp only [Option.some.injEq] at h
    subst h
    exact h2

theorem sigFromDer_bounds {bytes : List Nat} {p : Nat × Nat}
    (h : sigFromDer bytes = some p) :
    0 < p.1 ∧ p.1 < p256Order ∧ 0 < p.2 ∧ p.2 < p256Order := by
  unfold sigFromDer at h
  split at h
  next b len rest =>
    split_ifs at h with h1
    split at h
    next => simp at h
    next r rest2 heq =>
      split at h
      next => simp at h
      next s rest3 heq2 =>
        split_ifs at h with h2
        simp only [Option.some.injEq] at h
        subst h
        exact ⟨h2.2.1, h2.2.2.1, h2.2.2.2.1, h2.2.2.2.2⟩
  next => simp at h

theorem sigFromSlice_of (bytes : List Nat) (h : bytes.length = 64)
    (hg : 0 < beNat (bytes.take 32) ∧ beNat (bytes.take 32) < p256Order ∧
          0 < beNat (bytes.drop 32) ∧ beNat (bytes.drop 32) < p256Order) :
    sigFromSlice bytes = some (beNat (bytes.take 32), beNat (bytes.drop 32)) := by
  simp only [sigFromSlice]
  rw [if_pos h, if_pos hg]

theorem sigFromSlice_sigToBytes {r s : Nat} (hr : 0 < r) (hr2 : r < p256Order)
    (hs : 0 < s) (hs2 : s < p256Order) :
    sigFromSlice (sigToBytes (r, s)) = some (r, s) := by
  have horder : p256Order < 256 ^ 32 := by decide
  have hlen : (sigToBytes (r, s)).length = 64 := by
    simp [sigToBytes, natToBytes_length]
  have htake : (sigToBytes (r, s)).take 32 = natToBytes 32 r :=
    List.take_left' (natToBytes_length 32 r)
  have hdrop : (sigToBytes (r, s)).drop 32 = natToBytes 32 s :=
    List.drop_left' (natToBytes_length 32 r)
  have hbr : beNat ((sigToBytes (r, s)).take 32) = r := by
    rw [htake, beNat_natToBytes]
    omega
  have hbs : beNat ((sigToBytes (r, s)).drop 32) = s := by
    rw [hdrop, beNat_natToBytes]
    omega
  have key := sigFromSlice_of _ hlen (by rw [hbr, hbs]; exact ⟨hr, hr2, hs, hs2⟩)
  rw [hbr, hbs] at key
  exact key

theorem ensure_some_shape {bytes t : List Nat}
    (h : ensure_raw_fixed_width_signature_encoding bytes = some t) :
    ∃ r s, 0 < r ∧ r < p256Order ∧ 0 < s ∧ s < p256Order ∧ t = sigToBytes (r, s) := by
  unfold ensure_raw_fixed_width_signature_encoding at h
  split at h
  next sig heq =>
    obtain ⟨r, s⟩ := sig
    obtain ⟨hr, hr2, hs, hs2⟩ := sigFromSlice_bounds heq
    exact ⟨r, s, hr, hr2, hs, hs2, (Option.some.inj h).symm⟩
  next heq =>
    split at h
    next sig heq2 =>
      obtain ⟨r, s⟩ := sig
      obtain ⟨hr, hr2, hs, hs2⟩ := sigFromDer_bounds heq2
      exact ⟨r, s, hr, hr2, hs, hs2, (Option.some.inj h).symm⟩
    next => simp at h

theorem ensure_of_slice {bytes : List Nat} {p : Nat × Nat}
    (h : sigFromSlice bytes = some p) :
    ensure_raw_fixed_width_signature_encoding bytes = some (sigToBytes p) := by
  unfold ensure_raw_fixed_width_signature_encoding
  rw [h]

section

/- The signature codecs are made locally irreducible for the idempotence
proof so that elaboration treats `sigToBytes` applications as opaque; the
proof is pure rewriting and needs no unfolding. -/
attribute [local irreducible] sigToBytes sigFromSlice sigFromDer
  ensure_raw_fixed_width_signature_encoding

/-- C7: signature normalisation is idempotent: whenever
`ensure_raw_fixed_width_signature_encoding` accepts `s` and emits `t`, it
accepts `t` and emits `t` again — the emitted raw fixed-width form parses
back under the raw probe, which is tried first. -/
theorem c7_normalisation_idempotent (s t : List Nat)
    (h : ensure_raw_fixed_width_signature_encoding s = some t) :
    ensure_raw_fixed_width_signature_encoding t = some t := by
  obtain ⟨r, sc, hr, hr2, hs, hs2, ht⟩ := ensure_some_shape h
  subst ht
  exact ensure_of_slice (sigFromSlice_sigToBytes hr hr2 hs hs2)

end

/-- C7 witness: the theorem applied to the concrete DER signature, whose
normalisation is the concrete raw form, which normalises to itself. -/
theorem c7_normalisation_idempotent_witness :
    ensure_raw_fixed_width_signature_encoding rawSigOne = some rawSigOne :=
  c7_normalisation_idempotent derSigOne rawSigOne (by decide)

/-- C3: the claim says `submit_response` accepts raw or DER encodings and
errors only when both parses fail.  The code refutes it: a valid DER
signature — which the DER probe parses and the crypto.rs utility happily
normalises — is rejected by `submit_response` with `InvalidSignature`,
because holder.rs only ever tries `Signature::from_slice` (raw); the raw
form is accepted and re-emitted fixed-width. -/
theorem c3_submit_response_rejects_der :
    sigFromDer derSigOne = some (1, 1) ∧
    ensure_raw_fixed_width_signature_encoding derSigOne = some rawSigOne ∧
    submit_response_signature derSigOne
      = Except.error (SignatureError.InvalidSignature "signature parse error") ∧
    submit_response_signature rawSigOne = Except.ok rawSigOne := by
  refine ⟨by decide, by decide, rfl, rfl⟩
